import Mathlib

/-!
Shallow embedding of `FolderKeywordRename.cpp` (a command-line folder-rename
utility) and proofs about it.

Strings are modelled as lists of byte values (`List Nat`), matching C++
`std::string` as a byte sequence.  Case lowering is the locale-independent
ASCII-range lowering (bytes 65..90 map to 97..122; all other bytes are
unchanged), as the specification fixes for this program.

The filesystem and the external command interpreter are abstract
capabilities: a `World` carries the listing of the working directory and the
exit status the host shell would return for the configured follow-up
command.  `run` is the embedding of `main`: it returns the process exit
code together with the observable effects of the run (which renames were
performed, which commands were executed, whether the usage text was
printed, whether the directory was scanned) and the `RunOutcome` the
specification assigns to the taken branch.
-/

namespace FolderKeywordRename

/-- Bytes of a string literal, used to write the C++ string constants of the
source (option names, messages) inside the model. -/
def str (s : String) : List Nat :=
  s.toList.map Char.toNat

/-- ASCII-range `tolower` on one byte: `A`..`Z` (65..90) map to `a`..`z`
(97..122); every other byte is unchanged. -/
def asciiLower (c : Nat) : Nat :=
  if 65 ≤ c ∧ c ≤ 90 then c + 32 else c

/-- ASCII-range `toupper` on one byte: `a`..`z` (97..122) map to `A`..`Z`
(65..90); every other byte is unchanged. -/
def asciiUpper (c : Nat) : Nat :=
  if 97 ≤ c ∧ c ≤ 122 then c - 32 else c

/-- Lowercase a whole string, as the two `std::transform` calls in
`containsKeyword` do. -/
def lowerStr (s : List Nat) : List Nat :=
  s.map asciiLower

/-- Uppercase a whole string (used to state the case-symmetry property). -/
def upperStr (s : List Nat) : List Nat :=
  s.map asciiUpper

/-- Whether `hay` starts with `needle`. -/
def startsWithL : List Nat → List Nat → Bool
  | [], _ => true
  | _ :: _, [] => false
  | a :: n, b :: h => a == b && startsWithL n h

/-- Whether `needle` occurs as a contiguous substring of `hay`; this is
`hay.find(needle) != std::string::npos` for C++ strings. -/
def findSub (needle : List Nat) : List Nat → Bool
  | [] => startsWithL needle []
  | b :: h => startsWithL needle (b :: h) || findSub needle h

/-- Embedding of `containsKeyword` (source lines 111-120): lowercase both the
folder name and the keyword, then test substring containment. -/
def containsKeyword (folderName keyword : List Nat) : Bool :=
  findSub (lowerStr keyword) (lowerStr folderName)

/-- Embedding of the `Config` struct (source lines 18-24), with the same
default field values. -/
structure Config where
  keyword : List Nat := []
  newName : List Nat := []
  command : List Nat := []
  executeCommand : Bool := false
  verbose : Bool := false
deriving DecidableEq, Repr

/-- Result of `parseArguments`.  The C++ function returns `bool` and prints;
we keep the distinct `return false` sites apart because the claims talk
about which of them prints the usage text.  `helpShown` is the `-h` or `--help`
branch (prints usage), `missingValue`/`unknownOption` are the error branches
that print only an error message, `requiredMissing` is the final
empty-keyword/empty-newName check (prints an error and the usage text). -/
inductive ParseResult where
  | success (c : Config)
  | helpShown
  | missingValue (flag : List Nat)
  | unknownOption (tok : List Nat)
  | requiredMissing
deriving DecidableEq, Repr

/-- Embedding of the option loop of `parseArguments` (source lines 60-99)
followed by the required-field check (lines 101-105).  The loop walks the
argument tokens left to right; a value-taking option consumes the next token
(`argv[++i]`) when it exists and fails otherwise. -/
def parseLoop : List (List Nat) → Config → ParseResult
  | [], c =>
    if c.keyword = [] ∨ c.newName = [] then ParseResult.requiredMissing
    else ParseResult.success c
  | a :: rest, c =>
    if a = str "-h" ∨ a = str "--help" then ParseResult.helpShown
    else if a = str "-v" ∨ a = str "--verbose" then
      parseLoop rest { c with verbose := true }
    else if a = str "-k" ∨ a = str "--keyword" then
      match rest with
      | v :: rest2 => parseLoop rest2 { c with keyword := v }
      | [] => ParseResult.missingValue a
    else if a = str "-n" ∨ a = str "--newname" then
      match rest with
      | v :: rest2 => parseLoop rest2 { c with newName := v }
      | [] => ParseResult.missingValue a
    else if a = str "-c" ∨ a = str "--command" then
      match rest with
      | v :: rest2 =>
        parseLoop rest2 { c with command := v, executeCommand := true }
      | [] => ParseResult.missingValue a
    else ParseResult.unknownOption a

/-- Embedding of `parseArguments` (source lines 59-108) on the argument list
`argv[1..]`, starting from the default-initialised `Config` of `main`. -/
def parseArguments (args : List (List Nat)) : ParseResult :=
  parseLoop args {}

/-- Re-serialize a `Config` to an argument list: `-k keyword -n newName`,
plus `-c command` when `executeCommand`, plus `-v` when `verbose`. -/
def serializeConfig (c : Config) : List (List Nat) :=
  [str "-k", c.keyword, str "-n", c.newName]
    ++ (if c.executeCommand then [str "-c", c.command] else [])
    ++ (if c.verbose then [str "-v"] else [])

/-- One entry of the working-directory listing: its final path component and
whether it is a directory. -/
structure Entry where
  name : List Nat
  isDir : Bool
deriving DecidableEq, Repr

/-- The abstract environment of one run: the listing of the working
directory that `fs::directory_iterator(".")` yields, in listing order, and
the exit status `std::system` would return for the follow-up command. -/
structure World where
  entries : List Entry
  cmdExit : Int
deriving DecidableEq, Repr

/-- The scan loop of `main` (source lines 168-180): keep, in listing order,
the entries that are directories and whose name contains the keyword. -/
def scanMatches (entries : List Entry) (keyword : List Nat) : List Entry :=
  entries.filter (fun e => e.isDir && containsKeyword e.name keyword)

/-- The run outcomes named by the specification. -/
inductive RunOutcome where
  | NoMatch
  | AmbiguousMatch (count : Nat)
  | Renamed (oldName newName : List Nat)
  | RenameFailed (reason : List Nat)
  | CommandFailed (exitCode : Int)
deriving DecidableEq, Repr

/-- Observable result of one run of the program: the process exit code and
the effects performed.  `renames` lists the `fs::rename` calls as
`(oldName, newName)` pairs, `commandsRun` lists the command strings passed
to `std::system`, `usagePrinted` records whether `showHelp` ran, `scanned`
whether the directory was listed, and `outcome` is the specification's
`RunOutcome` for the branch taken (`none` on the parse-failure and help
paths, which the specification classifies outside `RunOutcome`). -/
structure RunResult where
  exitCode : Nat
  scanned : Bool
  renames : List (List Nat × List Nat)
  commandsRun : List (List Nat)
  usagePrinted : Bool
  outcome : Option RunOutcome
deriving DecidableEq, Repr

/-- Embedding of `main` (source lines 143-229).  `parseArguments` failing in
any way (help included) makes `main` return 1 (line 151).  Otherwise the
directory is scanned; zero matches return 0 (line 184), several matches
print a warning and return 1 (line 191), and a single match is renamed
unless a filesystem entry already exists at `newName` (lines 199-202).
After a successful rename the follow-up command runs exactly when
`executeCommand` is set, and a non-zero exit status from it makes `main`
return 1 (lines 209-214). -/
def run (args : List (List Nat)) (w : World) : RunResult :=
  match parseArguments args with
  | ParseResult.helpShown =>
    { exitCode := 1, scanned := false, renames := [], commandsRun := [],
      usagePrinted := true, outcome := none }
  | ParseResult.missingValue _ =>
    { exitCode := 1, scanned := false, renames := [], commandsRun := [],
      usagePrinted := false, outcome := none }
  | ParseResult.unknownOption _ =>
    { exitCode := 1, scanned := false, renames := [], commandsRun := [],
      usagePrinted := false, outcome := none }
  | ParseResult.requiredMissing =>
    { exitCode := 1, scanned := false, renames := [], commandsRun := [],
      usagePrinted := true, outcome := none }
  | ParseResult.success c =>
    match scanMatches w.entries c.keyword with
    | [] =>
      { exitCode := 0, scanned := true, renames := [], commandsRun := [],
        usagePrinted := false, outcome := some RunOutcome.NoMatch }
    | [m] =>
      if w.entries.any (fun e => e.name = c.newName) then
        { exitCode := 1, scanned := true, renames := [], commandsRun := [],
          usagePrinted := false,
          outcome := some (RunOutcome.RenameFailed (str "target exists")) }
      else if c.executeCommand then
        if w.cmdExit ≠ 0 then
          { exitCode := 1, scanned := true,
            renames := [(m.name, c.newName)], commandsRun := [c.command],
            usagePrinted := false,
            outcome := some (RunOutcome.CommandFailed w.cmdExit) }
        else
          { exitCode := 0, scanned := true,
            renames := [(m.name, c.newName)], commandsRun := [c.command],
            usagePrinted := false,
            outcome := some (RunOutcome.Renamed m.name c.newName) }
      else
        { exitCode := 0, scanned := true,
          renames := [(m.name, c.newName)], commandsRun := [],
          usagePrinted := false,
          outcome := some (RunOutcome.Renamed m.name c.newName) }
    | e₁ :: e₂ :: es =>
      { exitCode := 1, scanned := true, renames := [], commandsRun := [],
        usagePrinted := false,
        outcome := some (RunOutcome.AmbiguousMatch
          (e₁ :: e₂ :: es).length) }

/-- The command-execution policy of a run, as one decidable check: the
follow-up command runs at most once, and when it runs the parse produced a
config with `executeCommand` set, a rename was performed first, and the
outcome is neither `NoMatch` nor `AmbiguousMatch` nor `RenameFailed`. -/
def commandPolicy (args : List (List Nat)) (w : World) : Bool :=
  match (run args w).commandsRun with
  | [] => true
  | [_] =>
    (match parseArguments args with
     | ParseResult.success c => c.executeCommand
     | _ => false)
      && !(run args w).renames.isEmpty
      && (match (run args w).outcome with
          | some RunOutcome.NoMatch => false
          | some (RunOutcome.AmbiguousMatch _) => false
          | some (RunOutcome.RenameFailed _) => false
          | _ => true)
  | _ :: _ :: _ => false

/-! ### Substring containment and case lowering -/

theorem startsWithL_iff : ∀ n h : List Nat, startsWithL n h = true ↔ ∃ t, h = n ++ t := by
  intro n
  induction n with
  | nil =>
    intro h
    simp [startsWithL]
  | cons a n ih =>
    intro h
    cases h with
    | nil => simp [startsWithL]
    | cons b h' =>
      simp only [startsWithL, Bool.and_eq_true, beq_iff_eq, ih,
        List.cons_append, List.cons.injEq]
      constructor
      · rintro ⟨hab, t, ht⟩
        exact ⟨t, hab.symm, ht⟩
      · rintro ⟨t, hba, ht⟩
        exact ⟨hba.symm, t, ht⟩

theorem findSub_iff : ∀ n h : List Nat, findSub n h = true ↔ ∃ pre post, h = pre ++ n ++ post := by
  intro n h
  induction h with
  | nil =>
    simp only [findSub, startsWithL_iff]
    constructor
    · rintro ⟨t, ht⟩
      exact ⟨[], t, ht⟩
    · rintro ⟨pre, post, hp⟩
      rcases List.append_eq_nil.mp hp.symm with ⟨h1, h2⟩
      rcases List.append_eq_nil.mp h1 with ⟨h3, h4⟩
      exact ⟨[], by simp [h4]⟩
  | cons b h' ih =>
    simp only [findSub, Bool.or_eq_true, startsWithL_iff, ih]
    constructor
    · rintro (⟨t, ht⟩ | ⟨pre, post, hp⟩)
      · exact ⟨[], t, by simpa using ht⟩
      · exact ⟨b :: pre, post, by simp [hp]⟩
    · rintro ⟨pre, post, hp⟩
      cases pre with
      | nil =>
        exact Or.inl ⟨post, by simpa using hp⟩
      | cons x pre' =>
        simp only [List.cons_append, List.cons.injEq] at hp
        exact Or.inr ⟨pre', post, hp.2⟩

theorem findSub_nil_left : ∀ h : List Nat, findSub [] h = true := by
  intro h
  cases h <;> simp [findSub, startsWithL]

theorem asciiLower_asciiLower (c : Nat) : asciiLower (asciiLower c) = asciiLower c := by
  simp only [asciiLower]
  split <;> (try split) <;> omega

theorem asciiLower_asciiUpper (c : Nat) : asciiLower (asciiUpper c) = asciiLower c := by
  simp only [asciiUpper, asciiLower]
  split <;> (try split) <;> (try split) <;> omega

theorem lowerStr_lowerStr (s : List Nat) : lowerStr (lowerStr s) = lowerStr s := by
  simp only [lowerStr, List.map_map]
  exact List.map_congr_left fun a _ => asciiLower_asciiLower a

theorem lowerStr_upperStr (s : List Nat) : lowerStr (upperStr s) = lowerStr s := by
  simp only [lowerStr, upperStr, List.map_map]
  exact List.map_congr_left fun a _ => asciiLower_asciiUpper a

theorem containsKeyword_nil_right (f : List Nat) : containsKeyword f (str "") = true := by
  simp [containsKeyword, str, lowerStr, findSub_nil_left]

/-- C4: the scan keeps exactly the directory entries whose name contains the
keyword; `containsKeyword` holds iff the lowercased keyword is a contiguous
substring of the lowercased folder name; and the predicate is invariant
under uniformly lowercasing or uppercasing both of its inputs. -/
theorem scan_case_insensitive_characterization
    (f k : List Nat) (entries : List Entry) (e : Entry) :
    (e ∈ scanMatches entries k ↔
      e ∈ entries ∧ e.isDir = true ∧ containsKeyword e.name k = true)
    ∧ (containsKeyword f k = true ↔
        ∃ pre post, lowerStr f = pre ++ lowerStr k ++ post)
    ∧ containsKeyword (lowerStr f) (lowerStr k) = containsKeyword f k
    ∧ containsKeyword (upperStr f) (upperStr k) = containsKeyword f k := by
  refine ⟨?_, ?_, ?_, ?_⟩
  · simp [scanMatches, List.mem_filter, Bool.and_eq_true, and_assoc]
  · simp [containsKeyword, findSub_iff]
  · simp [containsKeyword, lowerStr_lowerStr]
  · simp [containsKeyword, lowerStr_upperStr]

/-- C9: the empty keyword matches every folder name, so a scan with the
empty keyword keeps every directory entry of the listing. -/
theorem empty_keyword_matches_everything (f : List Nat) (entries : List Entry) :
    containsKeyword f (str "") = true
    ∧ scanMatches entries (str "") = entries.filter (fun e => e.isDir) := by
  refine ⟨containsKeyword_nil_right f, ?_⟩
  unfold scanMatches
  apply List.filter_congr
  intro e _
  simp [containsKeyword_nil_right]

/-! ### Behaviour of `main` on the scan outcomes -/

/-- C1: when the scan finds more than one matching directory, the run exits
with code 1, prints the ambiguity warning (recorded as the
`AmbiguousMatch` outcome), performs no rename, and runs no command. -/
theorem ambiguous_match_no_rename
    (args : List (List Nat)) (w : World) (c : Config)
    (hp : parseArguments args = ParseResult.success c)
    (hlen : 1 < (scanMatches w.entries c.keyword).length) :
    (run args w).exitCode = 1
    ∧ (run args w).renames = []
    ∧ (run args w).commandsRun = []
    ∧ (run args w).outcome
        = some (RunOutcome.AmbiguousMatch (scanMatches w.entries c.keyword).length) := by
  rcases hm : scanMatches w.entries c.keyword with _ | ⟨e₁, _ | ⟨e₂, es⟩⟩
  · rw [hm] at hlen
    simp at hlen
  · rw [hm] at hlen
    simp at hlen
  · simp [run, hp, hm]

/-- Witness for C1: with directories `old_temp` and `old_backup` and keyword
`old`, the run exits 1 with `AmbiguousMatch 2` and touches nothing. -/
theorem ambiguous_match_no_rename_witness :
    (run [str "-k", str "old", str "-n", str "new"]
        ⟨[⟨str "old_temp", true⟩, ⟨str "old_backup", true⟩], 0⟩).exitCode = 1
    ∧ (run [str "-k", str "old", str "-n", str "new"]
        ⟨[⟨str "old_temp", true⟩, ⟨str "old_backup", true⟩], 0⟩).renames = []
    ∧ (run [str "-k", str "old", str "-n", str "new"]
        ⟨[⟨str "old_temp", true⟩, ⟨str "old_backup", true⟩], 0⟩).commandsRun = []
    ∧ (run [str "-k", str "old", str "-n", str "new"]
        ⟨[⟨str "old_temp", true⟩, ⟨str "old_backup", true⟩], 0⟩).outcome
        = some (RunOutcome.AmbiguousMatch 2) :=
  ambiguous_match_no_rename
    [str "-k", str "old", str "-n", str "new"]
    ⟨[⟨str "old_temp", true⟩, ⟨str "old_backup", true⟩], 0⟩
    ⟨str "old", str "new", [], false, false⟩ (by decide) (by decide)

/-- C2: with exactly one matching directory but an existing filesystem entry
at `newName`, the run fails with `RenameFailed "target exists"`, exits 1,
and performs no rename and no command. -/
theorem target_exists_no_rename
    (args : List (List Nat)) (w : World) (c : Config) (m : Entry)
    (hp : parseArguments args = ParseResult.success c)
    (hm : scanMatches w.entries c.keyword = [m])
    (hex : w.entries.any (fun e => e.name = c.newName) = true) :
    (run args w).exitCode = 1
    ∧ (run args w).renames = []
    ∧ (run args w).commandsRun = []
    ∧ (run args w).outcome
        = some (RunOutcome.RenameFailed (str "target exists")) := by
  simp [run, hp, hm, hex]

/-- Witness for C2: directory `temp_project` matches keyword `temp`, but a
file `final` already exists, so nothing is renamed and the run exits 1. -/
theorem target_exists_no_rename_witness :
    (run [str "-k", str "temp", str "-n", str "final"]
        ⟨[⟨str "temp_project", true⟩, ⟨str "final", false⟩], 0⟩).exitCode = 1
    ∧ (run [str "-k", str "temp", str "-n", str "final"]
        ⟨[⟨str "temp_project", true⟩, ⟨str "final", false⟩], 0⟩).renames = []
    ∧ (run [str "-k", str "temp", str "-n", str "final"]
        ⟨[⟨str "temp_project", true⟩, ⟨str "final", false⟩], 0⟩).commandsRun = []
    ∧ (run [str "-k", str "temp", str "-n", str "final"]
        ⟨[⟨str "temp_project", true⟩, ⟨str "final", false⟩], 0⟩).outcome
        = some (RunOutcome.RenameFailed (str "target exists")) :=
  target_exists_no_rename
    [str "-k", str "temp", str "-n", str "final"]
    ⟨[⟨str "temp_project", true⟩, ⟨str "final", false⟩], 0⟩
    ⟨str "temp", str "final", [], false, false⟩ ⟨str "temp_project", true⟩
    (by decide) (by decide) (by decide)

/-- C7: when the scan finds no matching directory, the run exits with code
0, the outcome is `NoMatch`, and no rename or command execution occurs. -/
theorem no_match_exits_zero
    (args : List (List Nat)) (w : World) (c : Config)
    (hp : parseArguments args = ParseResult.success c)
    (hm : scanMatches w.entries c.keyword = []) :
    (run args w).exitCode = 0
    ∧ (run args w).renames = []
    ∧ (run args w).commandsRun = []
    ∧ (run args w).outcome = some RunOutcome.NoMatch := by
  simp [run, hp, hm]

/-- Witness for C7: keyword `xyz` matches nothing in a directory holding
only `docs`, so the run exits 0 with outcome `NoMatch`. -/
theorem no_match_exits_zero_witness :
    (run [str "-k", str "xyz", str "-n", str "new"]
        ⟨[⟨str "docs", true⟩], 0⟩).exitCode = 0
    ∧ (run [str "-k", str "xyz", str "-n", str "new"]
        ⟨[⟨str "docs", true⟩], 0⟩).renames = []
    ∧ (run [str "-k", str "xyz", str "-n", str "new"]
        ⟨[⟨str "docs", true⟩], 0⟩).commandsRun = []
    ∧ (run [str "-k", str "xyz", str "-n", str "new"]
        ⟨[⟨str "docs", true⟩], 0⟩).outcome = some RunOutcome.NoMatch :=
  no_match_exits_zero
    [str "-k", str "xyz", str "-n", str "new"] ⟨[⟨str "docs", true⟩], 0⟩
    ⟨str "xyz", str "new", [], false, false⟩ (by decide) (by decide)

/-- C5: when the rename succeeds and the follow-up command returns a
non-zero exit status, the process exits with the fixed failure code 1 (not
the command's own status), and the completed rename stays recorded — it is
never rolled back. -/
theorem command_failure_keeps_rename
    (args : List (List Nat)) (w : World) (c : Config) (m : Entry)
    (hp : parseArguments args = ParseResult.success c)
    (hm : scanMatches w.entries c.keyword = [m])
    (hex : w.entries.any (fun e => e.name = c.newName) = false)
    (hcmd : c.executeCommand = true)
    (hne : w.cmdExit ≠ 0) :
    (run args w).exitCode = 1
    ∧ (run args w).renames = [(m.name, c.newName)]
    ∧ (run args w).commandsRun = [c.command]
    ∧ (run args w).outcome = some (RunOutcome.CommandFailed w.cmdExit) := by
  simp [run, hp, hm, hex, hcmd, hne]

/-- Witness for C5: the follow-up command exits with status 7; the process
still exits 1 and the rename of `temp_project` to `final` is kept. -/
theorem command_failure_keeps_rename_witness :
    (run [str "-k", str "temp", str "-n", str "final", str "-c", str "exit 7"]
        ⟨[⟨str "temp_project", true⟩], 7⟩).exitCode = 1
    ∧ (run [str "-k", str "temp", str "-n", str "final", str "-c", str "exit 7"]
        ⟨[⟨str "temp_project", true⟩], 7⟩).renames
        = [(str "temp_project", str "final")]
    ∧ (run [str "-k", str "temp", str "-n", str "final", str "-c", str "exit 7"]
        ⟨[⟨str "temp_project", true⟩], 7⟩).commandsRun = [str "exit 7"]
    ∧ (run [str "-k", str "temp", str "-n", str "final", str "-c", str "exit 7"]
        ⟨[⟨str "temp_project", true⟩], 7⟩).outcome
        = some (RunOutcome.CommandFailed 7) :=
  command_failure_keeps_rename
    [str "-k", str "temp", str "-n", str "final", str "-c", str "exit 7"]
    ⟨[⟨str "temp_project", true⟩], 7⟩
    ⟨str "temp", str "final", str "exit 7", true, false⟩
    ⟨str "temp_project", true⟩
    (by decide) (by decide) (by decide) (by decide) (by decide)

/-- C3 (amended): when the parser reaches a `-h` or `--help` token, the
usage text is printed and no filesystem work happens, but the process exit
code is 1, because `parseArguments` returns `false` for help and `main`
maps every `false` to `return 1`. -/
theorem help_prints_usage_exits_one
    (args : List (List Nat)) (w : World)
    (hp : parseArguments args = ParseResult.helpShown) :
    (run args w).exitCode = 1
    ∧ (run args w).usagePrinted = true
    ∧ (run args w).scanned = false
    ∧ (run args w).renames = []
    ∧ (run args w).commandsRun = [] := by
  simp [run, hp]

/-- Witness for the amended C3 at the concrete argument list `--help`. -/
theorem help_prints_usage_exits_one_witness :
    (run [str "--help"] ⟨[], 0⟩).exitCode = 1
    ∧ (run [str "--help"] ⟨[], 0⟩).usagePrinted = true
    ∧ (run [str "--help"] ⟨[], 0⟩).scanned = false
    ∧ (run [str "--help"] ⟨[], 0⟩).renames = []
    ∧ (run [str "--help"] ⟨[], 0⟩).commandsRun = [] :=
  help_prints_usage_exits_one [str "--help"] ⟨[], 0⟩ (by decide)

/-- Counterexample to C3 as stated: on the argument list `-h` the process
exit code is 1, not 0, even though the usage text was printed. -/
theorem help_exit_code_not_zero_cex :
    (run [str "-h"] ⟨[], 0⟩).exitCode = 1
    ∧ (run [str "-h"] ⟨[], 0⟩).usagePrinted = true := by
  decide

/-- C6: in every run the follow-up command is executed at most once, and
only when the parsed config has `executeCommand` set, a rename was already
performed, and the outcome is none of `NoMatch`, `AmbiguousMatch`,
`RenameFailed`. -/
theorem command_at_most_once_after_rename
    (args : List (List Nat)) (w : World) : commandPolicy args w = true := by
  cases hp : parseArguments args with
  | success c =>
    rcases hm : scanMatches w.entries c.keyword with _ | ⟨m, _ | ⟨m₂, tl⟩⟩
    · simp [commandPolicy, run, hp, hm]
    · by_cases hex : (w.entries.any fun e => e.name = c.newName) = true
      · simp [commandPolicy, run, hp, hm, hex]
      · by_cases hc : c.executeCommand = true
        · by_cases hz : w.cmdExit = 0
          · simp [commandPolicy, run, hp, hm, hex, hc, hz]
          · simp [commandPolicy, run, hp, hm, hex, hc, hz]
        · simp [commandPolicy, run, hp, hm, hex, hc]
    · simp [commandPolicy, run, hp, hm]
  | helpShown => simp [commandPolicy, run, hp]
  | missingValue f => simp [commandPolicy, run, hp]
  | unknownOption t => simp [commandPolicy, run, hp]
  | requiredMissing => simp [commandPolicy, run, hp]

/-! ### Parser properties -/

/-- Parsing success forces the required fields to be non-empty, and the
`command` field can only be non-empty when `executeCommand` was set (the
`-c` branch is the only writer of either). -/
theorem parseLoop_success_fields :
    ∀ (n : Nat) (args : List (List Nat)), args.length ≤ n →
      ∀ (acc c : Config), parseLoop args acc = ParseResult.success c →
      (acc.executeCommand = false → acc.command = []) →
      c.keyword ≠ [] ∧ c.newName ≠ []
        ∧ (c.executeCommand = false → c.command = []) := by
  intro n
  induction n with
  | zero =>
    intro args hlen acc c hp hinv
    have hargs : args = [] := List.eq_nil_of_length_eq_zero (Nat.le_zero.mp hlen)
    subst hargs
    simp only [parseLoop] at hp
    by_cases h0 : acc.keyword = [] ∨ acc.newName = []
    · rw [if_pos h0] at hp
      exact absurd hp (by simp)
    · rw [if_neg h0] at hp
      push_neg at h0
      simp only [ParseResult.success.injEq] at hp
      subst hp
      exact ⟨h0.1, h0.2, hinv⟩
  | succ n ih =>
    intro args hlen acc c hp hinv
    cases args with
    | nil =>
      simp only [parseLoop] at hp
      by_cases h0 : acc.keyword = [] ∨ acc.newName = []
      · rw [if_pos h0] at hp
        exact absurd hp (by simp)
      · rw [if_neg h0] at hp
        push_neg at h0
        simp only [ParseResult.success.injEq] at hp
        subst hp
        exact ⟨h0.1, h0.2, hinv⟩
    | cons a rest =>
      cases rest with
      | nil =>
        simp only [parseLoop] at hp
        by_cases h1 : a = str "-h" ∨ a = str "--help"
        · rw [if_pos h1] at hp
          exact absurd hp (by simp)
        rw [if_neg h1] at hp
        by_cases h2 : a = str "-v" ∨ a = str "--verbose"
        · rw [if_pos h2] at hp
          by_cases h0 : acc.keyword = [] ∨ acc.newName = []
          · rw [if_pos h0] at hp
            exact absurd hp (by simp)
          · rw [if_neg h0] at hp
            push_neg at h0
            simp only [ParseResult.success.injEq] at hp
            subst hp
            exact ⟨h0.1, h0.2, hinv⟩
        rw [if_neg h2] at hp
        by_cases h3 : a = str "-k" ∨ a = str "--keyword"
        · rw [if_pos h3] at hp
          exact absurd hp (by simp)
        rw [if_neg h3] at hp
        by_cases h4 : a = str "-n" ∨ a = str "--newname"
        · rw [if_pos h4] at hp
          exact absurd hp (by simp)
        rw [if_neg h4] at hp
        by_cases h5 : a = str "-c" ∨ a = str "--command"
        · rw [if_pos h5] at hp
          exact absurd hp (by simp)
        rw [if_neg h5] at hp
        exact absurd hp (by simp)
      | cons v rest2 =>
        have hrest2 : rest2.length ≤ n := by
          simp only [List.length_cons] at hlen
          omega
        have hrest1 : (v :: rest2).length ≤ n := by
          simp only [List.length_cons] at hlen ⊢
          omega
        simp only [parseLoop] at hp
        by_cases h1 : a = str "-h" ∨ a = str "--help"
        · rw [if_pos h1] at hp
          exact absurd hp (by simp)
        rw [if_neg h1] at hp
        by_cases h2 : a = str "-v" ∨ a = str "--verbose"
        · rw [if_pos h2] at hp
          exact ih (v :: rest2) hrest1 _ c hp hinv
        rw [if_neg h2] at hp
        by_cases h3 : a = str "-k" ∨ a = str "--keyword"
        · rw [if_pos h3] at hp
          exact ih rest2 hrest2 _ c hp hinv
        rw [if_neg h3] at hp
        by_cases h4 : a = str "-n" ∨ a = str "--newname"
        · rw [if_pos h4] at hp
          exact ih rest2 hrest2 _ c hp hinv
        rw [if_neg h4] at hp
        by_cases h5 : a = str "-c" ∨ a = str "--command"
        · rw [if_pos h5] at hp
          exact ih rest2 hrest2 _ c hp (by simp)
        rw [if_neg h5] at hp
        exact absurd hp (by simp)

/-- C8: re-serializing an accepted `Config` to an argument list and
re-parsing it yields the same `Config` in all five fields. -/
theorem parse_serialize_roundtrip
    (args : List (List Nat)) (c : Config)
    (hp : parseArguments args = ParseResult.success c) :
    parseArguments (serializeConfig c) = ParseResult.success c := by
  obtain ⟨hk, hn, hcmd⟩ :=
    parseLoop_success_fields args.length args le_rfl {} c hp (by simp)
  rcases c with ⟨kw, nn, cmd, exec, verb⟩
  simp only at hk hn hcmd
  cases exec with
  | false =>
    have hc : cmd = [] := hcmd rfl
    subst hc
    cases verb <;>
      simp +decide [parseArguments, serializeConfig, parseLoop, hk, hn]
  | true =>
    cases verb <;>
      simp +decide [parseArguments, serializeConfig, parseLoop, hk, hn]

/-- Witness for C8 at a config using every field. -/
theorem parse_serialize_roundtrip_witness :
    parseArguments (serializeConfig
        ⟨str "temp", str "final", str "echo done", true, true⟩)
      = ParseResult.success
          ⟨str "temp", str "final", str "echo done", true, true⟩ :=
  parse_serialize_roundtrip
    [str "-k", str "temp", str "-n", str "final",
      str "-c", str "echo done", str "-v"]
    ⟨str "temp", str "final", str "echo done", true, true⟩ (by decide)

/-- Two option spellings name the same value-taking option: both are `-k`
or `--keyword`, both are `-n` or `--newname`, or both are `-c` or
`--command`. -/
def sameValueFlag (f₁ f₂ : List Nat) : Prop :=
  ((f₁ = str "-k" ∨ f₁ = str "--keyword")
    ∧ (f₂ = str "-k" ∨ f₂ = str "--keyword"))
  ∨ ((f₁ = str "-n" ∨ f₁ = str "--newname")
    ∧ (f₂ = str "-n" ∨ f₂ = str "--newname"))
  ∨ ((f₁ = str "-c" ∨ f₁ = str "--command")
    ∧ (f₂ = str "-c" ∨ f₂ = str "--command"))

/-- C10 (amended): an immediately repeated value-taking option is not
rejected; the parse continues exactly as if only the later occurrence were
present, so the later value overwrites the earlier one. -/
theorem repeated_option_last_wins
    (f₁ f₂ v₁ v₂ : List Nat) (rest : List (List Nat)) (acc : Config)
    (hsame : sameValueFlag f₁ f₂) :
    parseLoop (f₁ :: v₁ :: f₂ :: v₂ :: rest) acc
      = parseLoop (f₂ :: v₂ :: rest) acc := by
  rcases hsame with ⟨h1, h2⟩ | ⟨h1, h2⟩ | ⟨h1, h2⟩ <;>
    rcases h1 with h1 | h1 <;> rcases h2 with h2 | h2 <;>
    subst h1 <;> subst h2 <;>
    simp +decide [parseLoop]

/-- Witness for the amended C10: a doubled `-k` collapses to its second
occurrence. -/
theorem repeated_option_last_wins_witness :
    parseLoop [str "-k", str "a", str "-k", str "b", str "-n", str "x"] {}
      = parseLoop [str "-k", str "b", str "-n", str "x"] {} :=
  repeated_option_last_wins (str "-k") (str "-k") (str "a") (str "b")
    [str "-n", str "x"] {} (Or.inl ⟨Or.inl rfl, Or.inl rfl⟩)

/-- Counterexample to C10 as stated: `-k` appears twice, each time with a
following value token, yet parsing does not succeed — the required
`newName` is still missing, so `parseArguments` fails (and `main` would
exit 1). -/
theorem repeated_option_parse_fails_cex :
    parseArguments [str "-k", str "a", str "-k", str "b"]
      = ParseResult.requiredMissing := by
  decide

end FolderKeywordRename
